import Mathlib

/-!
Dashboard core of `src/dashboard/static/app.js`.

A shallow embedding of the client-side state of the monitoring dashboard
(`cameras`, `onlineCameras`, `lastEventTime`, the emergency overlay, the alert
modal and the pending `setTimeout` callbacks) together with the functions that
mutate it: `fetchStatus`, `fetchEvents`, `renderCameras`, `renderFeed`,
`getLevelColor`, `openAlertModal`, `triggerEmergency` and `closeModal`.

Conventions of the embedding.

* A JavaScript `Set` is a list in insertion order without repetition
  (`Set.prototype.add` appends only when the value is absent).
* A camera identity is a JavaScript string, kept as its list of UTF-16 code
  units, because `Array.prototype.sort()` without comparator orders strings by
  code units.
* A function that can throw returns the state reached when it stopped together
  with `some error`; the mutations done before the throw are kept, as in
  JavaScript.
* The resolved value of `fetch(...).json()` is the argument of a tick.
* The state carries a log `calls` of the functions that ran, so that "no render"
  and "no trigger" are statements about the state.
-/

namespace Dashboard

/-! ## Data model -/

/-- A camera identity: the UTF-16 code units of a JavaScript string. -/
abbrev CamId := List Nat

/-- An element of the array returned by `/api/events`. `full_analysis` is read
through `evt.full_analysis || ...` and `video_clip` through
`evt.video_clip.split('/')`, so both may be absent in the embedding. -/
structure Event where
  stream_id : CamId
  timestamp : Int
  level : String
  description : String
  full_analysis : Option String
  video_clip : Option String
  deriving DecidableEq, Repr

/-- The body of `/api/status`; `online` may be absent. -/
structure StatusData where
  online : Option (List CamId)
  deriving DecidableEq, Repr

/-- The functions whose execution is logged. -/
inductive Call where
  | renderCameras
  | renderFeed (events : List Event)
  | triggerEmergency (evt : Event)
  | openAlertModal (evt : Event)
  | consoleError (msg : String)
  deriving DecidableEq, Repr

/-- One entry of `#camera-list`: the identity and the `isOnline` flag that
selects its classes and its LIVE/OFF label. -/
structure CameraRow where
  cam : CamId
  isOnline : Bool
  deriving DecidableEq, Repr

/-- One card of `#event-feed`: the event and the class given by
`getLevelColor(evt.level)`. -/
structure FeedCard where
  evt : Event
  levelColor : String
  deriving DecidableEq, Repr

/-- The alert modal (`modal-overlay`, `modal-player`, `modal-source`, ...). -/
structure Modal where
  display : String
  src : String
  playing : Bool
  title : String
  titleClass : String
  desc : String
  log : String
  deriving DecidableEq, Repr

/-- The module state of `app.js`, the parts of the page it writes, the pending
`setTimeout` callbacks of `triggerEmergency` (by due time, in ms) and the clock. -/
structure State where
  cameras : List CamId
  onlineCameras : List CamId
  lastEventTime : Int
  isEmergency : Bool
  cameraList : List CameraRow
  eventFeed : List FeedCard
  activeCamCount : Option Nat
  emergencyOverlayDisplay : String
  modal : Modal
  timers : List Nat
  now : Nat
  calls : List Call
  deriving DecidableEq, Repr

/-- The state after the declarations at the top of `app.js` (lines 15-18); an
element without inline style has `style.display = ""`. -/
def init : State :=
  { cameras := []
    onlineCameras := []
    lastEventTime := 0
    isEmergency := false
    cameraList := []
    eventFeed := []
    activeCamCount := none
    emergencyOverlayDisplay := ""
    modal := { display := "", src := "", playing := false, title := "",
               titleClass := "", desc := "", log := "" }
    timers := []
    now := 0
    calls := [] }

/-! ## JavaScript `Set` and string order -/

/-- The effect of `Set.prototype.add`. -/
def setAdd (s : List CamId) (x : CamId) : List CamId :=
  if x ∈ s then s else s ++ [x]

/-- The effect of `new Set(iterable)` and of `forEach(x => set.add(x))`. -/
def setAddAll (s : List CamId) (xs : List CamId) : List CamId :=
  xs.foldl setAdd s

/-- The strict order on strings used by `sort()`: the first differing code
unit decides, and a proper prefix comes first. -/
def strLt : CamId → CamId → Bool
  | [], [] => false
  | [], _ :: _ => true
  | _ :: _, [] => false
  | a :: as, b :: bs => if a < b then true else if b < a then false else strLt as bs

/-- The relation `a` does not come after `b`. -/
def strLe (a b : CamId) : Prop := strLt b a = false

instance strLe.decidable : DecidableRel strLe := fun a b =>
  inferInstanceAs (Decidable (strLt b a = false))

/-! ## Rendering -/

/-- The switch of `getLevelColor` (lines 156-164). -/
def getLevelColor (level : String) : String :=
  if level = "DANGER" then "text-red-500"
  else if level = "EXTREME" then "text-red-500"
  else if level = "WARN" then "text-amber-400"
  else if level = "SAFE" then "text-green-500"
  else "text-gray-400"

/-- The list `sortedCams` of `renderCameras` (lines 100-101): the union of the
observed and the online set, sorted. -/
def sortedCams (s : State) : List CamId :=
  (setAddAll [] (s.cameras ++ s.onlineCameras)).insertionSort strLe

/-- The function `renderCameras` (lines 99-127). -/
def renderCameras (s : State) : State :=
  { s with
    cameraList := (sortedCams s).map fun cam =>
      { cam := cam, isOnline := decide (cam ∈ s.onlineCameras) }
    calls := s.calls ++ [Call.renderCameras] }

/-- The function `renderFeed` (lines 129-154). -/
def renderFeed (events : List Event) (s : State) : State :=
  { s with
    cameras := setAddAll s.cameras (events.map fun evt => evt.stream_id)
    eventFeed := events.map fun evt =>
      { evt := evt, levelColor := getLevelColor evt.level }
    calls := s.calls ++ [Call.renderFeed events] }

/-! ## Modal and emergency overlay -/

/-- The last element of `clip.split('/')`, on the characters of `clip`. -/
def lastSegmentAux : List Char → List Char → List Char
  | [], acc => acc.reverse
  | c :: cs, acc => if c = '/' then lastSegmentAux cs [] else lastSegmentAux cs (c :: acc)

/-- The expression `evt.video_clip.split('/').pop()`. -/
def lastSegment (clip : String) : String :=
  String.mk (lastSegmentAux clip.data [])

/-- The function `closeModal` (lines 36-40). -/
def closeModal (s : State) : State :=
  { s with modal := { s.modal with display := "none", playing := false, src := "" } }

/-- The function `openAlertModal` (lines 199-214). Reading `.split` of an absent
`video_clip` throws a `TypeError` after the modal was displayed. The text of
`modal-meta` goes through `toLocaleTimeString` and is left out. -/
def openAlertModal (evt : Event) (s : State) : State × Option String :=
  let s1 := { s with
    modal := { s.modal with display := "flex" }
    calls := s.calls ++ [Call.openAlertModal evt] }
  match evt.video_clip with
  | none => (s1, some "TypeError")
  | some clip =>
    ({ s1 with
       modal :=
        { display := "flex"
          src := "/video/" ++ lastSegment clip
          playing := true
          title := evt.level ++ " DETECTED"
          titleClass := "text-2xl font-bold font-mono mb-2 " ++ getLevelColor evt.level
          desc := evt.description
          log := match evt.full_analysis with
            | some a => if a = "" then "No details available." else a
            | none => "No details available." } }, none)

/-- The function `triggerEmergency` (lines 216-227): show the overlay, open
the modal, then register the callback that hides the overlay 5000 ms later.
When `openAlertModal` throws, the `setTimeout` line is not reached. -/
def triggerEmergency (evt : Event) (s : State) : State × Option String :=
  let s1 := { s with
    emergencyOverlayDisplay := "block"
    calls := s.calls ++ [Call.triggerEmergency evt] }
  match openAlertModal evt s1 with
  | (s2, some err) => (s2, some err)
  | (s2, none) => ({ s2 with timers := s2.timers ++ [s2.now + 5000] }, none)

/-- Time passes by `ms` milliseconds: every pending callback that is due runs
(`emergencyOverlay.style.display = 'none'`) and is removed. -/
def elapse (ms : Nat) (s : State) : State :=
  { s with
    now := s.now + ms
    timers := s.timers.filter fun due => decide (s.now + ms < due)
    emergencyOverlayDisplay :=
      if s.timers.any (fun due => decide (due ≤ s.now + ms)) then "none"
      else s.emergencyOverlayDisplay }

/-- The emergency indicator is Active when the overlay is displayed. -/
def emergencyActive (s : State) : Bool :=
  decide (s.emergencyOverlayDisplay = "block")

/-! ## Polling ticks -/

/-- The test of line 88 on the level of the newest event. -/
def isEmergencyLevel (level : String) : Bool :=
  decide (level = "DANGER") || decide (level = "EXTREME")

/-- The function `fetchStatus` (lines 47-67) once the response `data` is there. -/
def fetchStatus (data : StatusData) (s : State) : State :=
  let s1 := { s with onlineCameras := [] }
  let s2 := match data.online with
    | some online => { s1 with onlineCameras := setAddAll s1.onlineCameras online }
    | none => s1
  let s3 := renderCameras s2
  { s3 with activeCamCount := some s3.onlineCameras.length }

/-- The function `fetchEvents` (lines 69-95) once the response `events` is
there; `none` is a `null` body. An exception of `triggerEmergency` is caught
and logged by the `catch` of line 92. -/
def fetchEvents (events : Option (List Event)) (s : State) : State :=
  match events with
  | none => s
  | some [] => s
  | some (latestEvent :: rest) =>
    let latestTs := latestEvent.timestamp
    if latestTs > s.lastEventTime then
      let s1 := { s with lastEventTime := latestTs }
      let s2 := renderFeed (latestEvent :: rest) s1
      if isEmergencyLevel latestEvent.level then
        match triggerEmergency latestEvent s2 with
        | (s3, some err) =>
          { s3 with calls := s3.calls ++ [Call.consoleError ("Events fetch error: " ++ err)] }
        | (s3, none) => s3
      else s2
    else s

/-- What happens between two observations of the page. -/
inductive Tick where
  | status (data : StatusData)
  | events (batch : Option (List Event))
  | elapse (ms : Nat)
  | closeModal
  deriving DecidableEq, Repr

/-- One step of the page. -/
def step (s : State) : Tick → State
  | Tick.status data => fetchStatus data s
  | Tick.events batch => fetchEvents batch s
  | Tick.elapse ms => elapse ms s
  | Tick.closeModal => closeModal s

/-- A run of the page. -/
def run (s : State) (ticks : List Tick) : State :=
  ticks.foldl step s

/-- An event with the given identity, timestamp and level and a stored clip. -/
def mkEvent (id : CamId) (ts : Int) (level : String) : Event :=
  { stream_id := id, timestamp := ts, level := level, description := "",
    full_analysis := none, video_clip := some "clips/a.mp4" }

/-- The calls logged on the way from `s` to `s2`. -/
def newCalls (s s2 : State) : List Call :=
  s2.calls.drop s.calls.length

/-- The page at time `t` when `triggerEmergency(evt)` is called at the listed
times (ascending, in ms) and nothing else happens: the callbacks due before a
call run before it. -/
def emergencyAt (s : State) : List (Nat × Event) → Nat → State
  | [], t => elapse (t - s.now) s
  | (t0, evt) :: later, t =>
    if t0 ≤ t then emergencyAt (triggerEmergency evt (elapse (t0 - s.now) s)).1 later t
    else elapse (t - s.now) s

/-! ## Lemmas on sets and on the string order -/

theorem mem_setAdd (s : List CamId) (x y : CamId) :
    y ∈ setAdd s x ↔ y ∈ s ∨ y = x := by
  unfold setAdd
  split
  · constructor
    · intro h; exact Or.inl h
    · rintro (h | h)
      · exact h
      · subst h; assumption
  · simp

theorem nodup_setAdd (s : List CamId) (x : CamId) (h : s.Nodup) :
    (setAdd s x).Nodup := by
  unfold setAdd
  split
  · exact h
  · rename_i hx
    rw [List.nodup_append]
    refine ⟨h, List.nodup_singleton x, ?_⟩
    intro a ha hb
    simp only [List.mem_singleton] at hb
    exact hx (hb ▸ ha)

theorem mem_setAddAll (xs : List CamId) (s : List CamId) (y : CamId) :
    y ∈ setAddAll s xs ↔ y ∈ s ∨ y ∈ xs := by
  induction xs generalizing s with
  | nil => simp [setAddAll]
  | cons x xs ih =>
    have h := ih (setAdd s x)
    simp only [setAddAll, List.foldl_cons] at h ⊢
    rw [h, mem_setAdd, List.mem_cons]
    tauto

theorem nodup_setAddAll (xs : List CamId) (s : List CamId) (h : s.Nodup) :
    (setAddAll s xs).Nodup := by
  induction xs generalizing s with
  | nil => simpa [setAddAll] using h
  | cons x xs ih =>
    have h2 := ih (setAdd s x) (nodup_setAdd s x h)
    simpa [setAddAll] using h2

theorem strLt_irrefl (a : CamId) : strLt a a = false := by
  induction a with
  | nil => rfl
  | cons x xs ih => simp [strLt, ih]

theorem strLt_cotrans (a b c : CamId) (h : strLt a c = true) :
    strLt a b = true ∨ strLt b c = true := by
  induction a generalizing b c with
  | nil =>
    cases c with
    | nil => simp [strLt] at h
    | cons z zs =>
      cases b with
      | nil => right; rfl
      | cons y ys => left; rfl
  | cons x xs ih =>
    cases c with
    | nil => simp [strLt] at h
    | cons z zs =>
      cases b with
      | nil => right; rfl
      | cons y ys =>
        simp only [strLt] at h ⊢
        by_cases hxz : x < z
        · by_cases hxy : x < y
          · left; simp [hxy]
          · right
            have : y < z := by omega
            simp [this]
        · have hzx : ¬ z < x := by
            intro hzx
            simp [hxz, hzx] at h
          have hxz2 : x = z := by omega
          subst hxz2
          simp only [lt_self_iff_false, if_false] at h
          by_cases hxy : x < y
          · left; simp [hxy]
          · by_cases hyx : y < x
            · right; simp [hyx]
            · have : x = y := by omega
              subst this
              simp only [lt_self_iff_false, if_false]
              exact ih ys zs h

theorem strLt_asymm (a b : CamId) (h : strLt a b = true) : strLt b a = false := by
  induction a generalizing b with
  | nil => cases b <;> simp [strLt] at h ⊢
  | cons x xs ih =>
    cases b with
    | nil => simp [strLt] at h
    | cons y ys =>
      simp only [strLt] at h ⊢
      by_cases hxy : x < y
      · have : ¬ y < x := by omega
        simp [this, hxy]
      · by_cases hyx : y < x
        · simp [hxy, hyx] at h
        · simp only [hxy, hyx, if_false] at h ⊢
          exact ih ys h

theorem strLt_connex (a b : CamId) (h1 : strLt a b = false) (h2 : strLt b a = false) :
    a = b := by
  induction a generalizing b with
  | nil => cases b <;> simp [strLt] at h1 ⊢
  | cons x xs ih =>
    cases b with
    | nil => simp [strLt] at h2
    | cons y ys =>
      simp only [strLt] at h1 h2
      by_cases hxy : x < y
      · simp [hxy] at h1
      · by_cases hyx : y < x
        · simp [hyx] at h2
        · have hx : x = y := by omega
          subst hx
          simp only [lt_self_iff_false, if_false] at h1 h2
          rw [ih ys h1 h2]

theorem strLe_isTotal : IsTotal CamId strLe :=
  ⟨fun a b => by
    unfold strLe
    cases h : strLt b a with
    | false => exact Or.inl rfl
    | true => exact Or.inr (strLt_asymm b a h)⟩

theorem strLe_isTrans : IsTrans CamId strLe :=
  ⟨fun a b c hab hbc => by
    unfold strLe at *
    cases h : strLt c a with
    | false => rfl
    | true =>
      rcases strLt_cotrans c b a h with h1 | h1
      · rw [hbc] at h1; cases h1
      · rw [hab] at h1; cases h1⟩

theorem sortedCams_sorted (s : State) : (sortedCams s).Sorted strLe := by
  haveI := strLe_isTotal
  haveI := strLe_isTrans
  exact List.sorted_insertionSort strLe _

theorem sortedCams_perm (s : State) :
    (sortedCams s).Perm (setAddAll [] (s.cameras ++ s.onlineCameras)) :=
  List.perm_insertionSort strLe _

theorem mem_sortedCams (s : State) (id : CamId) :
    id ∈ sortedCams s ↔ id ∈ s.cameras ∨ id ∈ s.onlineCameras := by
  rw [(sortedCams_perm s).mem_iff, mem_setAddAll]
  simp

theorem sortedCams_nodup (s : State) : (sortedCams s).Nodup :=
  (sortedCams_perm s).nodup_iff.mpr (nodup_setAddAll _ [] List.nodup_nil)

/-! ## Lemmas on one events tick -/

theorem fetchEvents_not_new (s : State) (B : Option (List Event))
    (h : ¬ ∃ e rest, B = some (e :: rest) ∧ e.timestamp > s.lastEventTime) :
    fetchEvents B s = s := by
  match B with
  | none => rfl
  | some [] => rfl
  | some (e :: rest) =>
    have h2 : ¬ e.timestamp > s.lastEventTime := fun hgt => h ⟨e, rest, rfl, hgt⟩
    simp [fetchEvents, h2]

theorem fetchEvents_new_lastEventTime (s : State) (e : Event) (rest : List Event)
    (h : e.timestamp > s.lastEventTime) :
    (fetchEvents (some (e :: rest)) s).lastEventTime = e.timestamp := by
  simp only [fetchEvents, h, if_true]
  cases hl : isEmergencyLevel e.level <;> cases hc : e.video_clip <;>
    simp [triggerEmergency, openAlertModal, renderFeed, hc]

theorem fetchEvents_new_cameras (s : State) (e : Event) (rest : List Event)
    (h : e.timestamp > s.lastEventTime) :
    (fetchEvents (some (e :: rest)) s).cameras =
      setAddAll s.cameras ((e :: rest).map fun evt => evt.stream_id) := by
  simp only [fetchEvents, h, if_true]
  cases hl : isEmergencyLevel e.level <;> cases hc : e.video_clip <;>
    simp [triggerEmergency, openAlertModal, renderFeed, hc]

theorem fetchEvents_new_eventFeed (s : State) (e : Event) (rest : List Event)
    (h : e.timestamp > s.lastEventTime) :
    (fetchEvents (some (e :: rest)) s).eventFeed =
      (e :: rest).map fun evt => { evt := evt, levelColor := getLevelColor evt.level } := by
  simp only [fetchEvents, h, if_true]
  cases hl : isEmergencyLevel e.level <;> cases hc : e.video_clip <;>
    simp [triggerEmergency, openAlertModal, renderFeed, hc]

theorem fetchEvents_new_calls (s : State) (e : Event) (rest : List Event)
    (h : e.timestamp > s.lastEventTime) :
    (fetchEvents (some (e :: rest)) s).calls =
      s.calls ++ Call.renderFeed (e :: rest) ::
        (if isEmergencyLevel e.level then
          Call.triggerEmergency e :: Call.openAlertModal e ::
            (if e.video_clip = none then
              [Call.consoleError "Events fetch error: TypeError"] else [])
         else []) := by
  simp only [fetchEvents, h, if_true]
  cases hl : isEmergencyLevel e.level <;> cases hc : e.video_clip <;>
    simp [triggerEmergency, openAlertModal, renderFeed, hc]

theorem fetchEvents_new_overlay (s : State) (e : Event) (rest : List Event)
    (h : e.timestamp > s.lastEventTime) :
    (fetchEvents (some (e :: rest)) s).emergencyOverlayDisplay =
      if isEmergencyLevel e.level then "block" else s.emergencyOverlayDisplay := by
  simp only [fetchEvents, h, if_true]
  cases hl : isEmergencyLevel e.level <;> cases hc : e.video_clip <;>
    simp [triggerEmergency, openAlertModal, renderFeed, hc]

theorem newCalls_of_append (s s2 : State) (cs : List Call) (h : s2.calls = s.calls ++ cs) :
    newCalls s s2 = cs := by
  simp [newCalls, h]

theorem newCalls_self (s : State) : newCalls s s = [] := by
  simp [newCalls]

theorem isEmergencyLevel_iff (level : String) :
    isEmergencyLevel level = true ↔ level = "DANGER" ∨ level = "EXTREME" := by
  simp [isEmergencyLevel]

/-! ## The events tick and the watermark -/

/-- C1: for every state (watermark `s.lastEventTime`) and every fetched batch
`B`, one events tick logs a feed render if and only if `B` is non-empty and
`B[0].timestamp` exceeds the watermark, and the watermark changes only then.
When it does, the watermark after the tick is `B[0].timestamp`, the feed shows
the cards of `B`, and the tick logs the render followed by the emergency calls
the level test of `B[0]` selects; when it does not, the tick changes nothing. -/
theorem fetchEvents_treats_new_iff (s : State) (B : Option (List Event)) :
    ((∃ b, Call.renderFeed b ∈ newCalls s (fetchEvents B s)) ↔
      ∃ e rest, B = some (e :: rest) ∧ e.timestamp > s.lastEventTime) ∧
    ((fetchEvents B s).lastEventTime ≠ s.lastEventTime ↔
      ∃ e rest, B = some (e :: rest) ∧ e.timestamp > s.lastEventTime) ∧
    (∀ e rest, B = some (e :: rest) → e.timestamp > s.lastEventTime →
      (fetchEvents B s).lastEventTime = e.timestamp ∧
      (fetchEvents B s).eventFeed =
        (e :: rest).map (fun evt => { evt := evt, levelColor := getLevelColor evt.level }) ∧
      newCalls s (fetchEvents B s) =
        Call.renderFeed (e :: rest) ::
          (if isEmergencyLevel e.level then
            Call.triggerEmergency e :: Call.openAlertModal e ::
              (if e.video_clip = none then
                [Call.consoleError "Events fetch error: TypeError"] else [])
           else [])) ∧
    ((¬ ∃ e rest, B = some (e :: rest) ∧ e.timestamp > s.lastEventTime) →
      fetchEvents B s = s) := by
  by_cases hnew : ∃ e rest, B = some (e :: rest) ∧ e.timestamp > s.lastEventTime
  · obtain ⟨e, rest, hB, hgt⟩ := hnew
    subst hB
    have hc := newCalls_of_append s _ _ (fetchEvents_new_calls s e rest hgt)
    have hw := fetchEvents_new_lastEventTime s e rest hgt
    refine ⟨⟨fun _ => ⟨e, rest, rfl, hgt⟩, fun _ => ⟨e :: rest, ?_⟩⟩,
      ⟨fun _ => ⟨e, rest, rfl, hgt⟩, fun _ => ?_⟩, ?_, fun h => absurd ⟨e, rest, rfl, hgt⟩ h⟩
    · rw [hc]; exact List.mem_cons_self _ _
    · rw [hw]; exact ne_of_gt hgt
    · intro e2 rest2 heq hgt2
      have h1 : e :: rest = e2 :: rest2 := Option.some.inj heq
      have h2 : e = e2 := (List.cons.inj h1).1
      have h3 : rest = rest2 := (List.cons.inj h1).2
      subst h2; subst h3
      exact ⟨hw, fetchEvents_new_eventFeed s e rest hgt, hc⟩
  · have hs := fetchEvents_not_new s B hnew
    refine ⟨⟨fun h => ?_, fun h => absurd h hnew⟩, ⟨fun h => ?_, fun h => absurd h hnew⟩,
      fun e rest hB hgt => absurd ⟨e, rest, hB, hgt⟩ hnew, fun _ => hs⟩
    · rw [hs, newCalls_self] at h
      obtain ⟨b, hb⟩ := h
      cases hb
    · exact absurd (by rw [hs]) h

/-- C5: for every state and every batch `B`, an events tick calls
`triggerEmergency(evt)` if and only if `evt` is `B[0]`, `B[0].timestamp`
exceeds the watermark and the level of `B[0]` is DANGER or EXTREME; the other
events of `B` play no part. From the initial state, a batch with one WARN event
at 50 triggers nothing and leaves the watermark at 50; the batch with a DANGER
event at 80 before a WARN event at 50 then is new, calls `triggerEmergency` on
the DANGER event, shows the overlay and leaves the watermark at 80, whatever the
other fields of the events are. -/
theorem fetchEvents_triggers_iff :
    (∀ (s : State) (B : Option (List Event)) (evt : Event),
      Call.triggerEmergency evt ∈ newCalls s (fetchEvents B s) ↔
        ∃ rest, B = some (evt :: rest) ∧ evt.timestamp > s.lastEventTime ∧
          (evt.level = "DANGER" ∨ evt.level = "EXTREME")) ∧
    (∀ a b c : Event,
      let w50 : Event := { a with timestamp := 50, level := "WARN" }
      let d80 : Event := { b with timestamp := 80, level := "DANGER" }
      let w50b : Event := { c with timestamp := 50, level := "WARN" }
      let s1 := fetchEvents (some [w50]) init
      let s2 := fetchEvents (some [d80, w50b]) s1
      s1.lastEventTime = 50 ∧ emergencyActive s1 = false ∧
      (∀ evt, Call.triggerEmergency evt ∉ newCalls init s1) ∧
      Call.renderFeed [d80, w50b] ∈ newCalls s1 s2 ∧
      Call.triggerEmergency d80 ∈ newCalls s1 s2 ∧
      emergencyActive s2 = true ∧ s2.lastEventTime = 80) := by
  have key : ∀ (s : State) (B : Option (List Event)) (evt : Event),
      Call.triggerEmergency evt ∈ newCalls s (fetchEvents B s) ↔
        ∃ rest, B = some (evt :: rest) ∧ evt.timestamp > s.lastEventTime ∧
          (evt.level = "DANGER" ∨ evt.level = "EXTREME") := by
    intro s B evt
    by_cases hnew : ∃ e rest, B = some (e :: rest) ∧ e.timestamp > s.lastEventTime
    · obtain ⟨e, rest, hB, hgt⟩ := hnew
      subst hB
      rw [newCalls_of_append s _ _ (fetchEvents_new_calls s e rest hgt)]
      constructor
      · intro h
        cases hl : isEmergencyLevel e.level with
        | false => simp [hl] at h
        | true =>
          have he : evt = e := by
            cases hc : e.video_clip <;> simpa [hl, hc] using h
          subst he
          exact ⟨rest, rfl, hgt, (isEmergencyLevel_iff _).mp hl⟩
      · rintro ⟨rest2, heq, _, hlev⟩
        have h1 : e :: rest = evt :: rest2 := Option.some.inj heq
        have h2 : e = evt := (List.cons.inj h1).1
        subst h2
        simp [(isEmergencyLevel_iff _).mpr hlev]
    · rw [fetchEvents_not_new s B hnew, newCalls_self]
      constructor
      · intro h; cases h
      · rintro ⟨rest, hB, hgt, _⟩
        exact absurd ⟨evt, rest, hB, hgt⟩ hnew
  refine ⟨key, ?_⟩
  intro a b c w50 d80 w50b s1 s2
  have h50 : w50.timestamp > init.lastEventTime := by
    show (50 : Int) > 0
    decide
  have hs1 : s1.lastEventTime = 50 := fetchEvents_new_lastEventTime init w50 [] h50
  have h80 : d80.timestamp > s1.lastEventTime := by
    rw [hs1]
    show (80 : Int) > 50
    decide
  have hc2 := newCalls_of_append s1 s2 _ (fetchEvents_new_calls s1 d80 [w50b] h80)
  have hlev : isEmergencyLevel d80.level = true := by
    show isEmergencyLevel "DANGER" = true
    decide
  have hlev1 : isEmergencyLevel w50.level = false := by
    show isEmergencyLevel "WARN" = false
    decide
  have hact1 : emergencyActive s1 = false := by
    unfold emergencyActive
    rw [fetchEvents_new_overlay init w50 [] h50, hlev1]
    decide
  have hact2 : emergencyActive s2 = true := by
    unfold emergencyActive
    rw [fetchEvents_new_overlay s1 d80 [w50b] h80, hlev]
    simp
  refine ⟨hs1, hact1, ?_, ?_, ?_, hact2, fetchEvents_new_lastEventTime s1 d80 [w50b] h80⟩
  · intro evt hmem
    obtain ⟨rest, heq, _, hlev2⟩ := (key init (some [w50]) evt).mp hmem
    have h1 : [w50] = evt :: rest := Option.some.inj heq
    have h2 : w50 = evt := (List.cons.inj h1).1
    rw [← h2] at hlev2
    have hw : w50.level = "WARN" := rfl
    rw [hw] at hlev2
    revert hlev2
    decide
  · rw [hc2]; exact List.mem_cons_self _ _
  · rw [hc2, if_pos hlev]
    exact List.mem_cons_of_mem _ (List.mem_cons_self _ _)

/-- C6: for every state and every batch `B` that is absent, empty or has
`B[0].timestamp <= watermark`, an events tick returns the state unchanged:
same watermark, same observed cameras, no call logged (no feed render, no
emergency trigger). Hence for every batch the tick run twice gives the state of
the tick run once, the second run logging no call. After a batch with one SAFE
event at 100, a batch with one DANGER event at 100 is not new and changes
nothing. -/
theorem fetchEvents_stale_noop :
    (∀ (s : State) (B : Option (List Event)),
      (B = none ∨ B = some [] ∨
        ∃ e rest, B = some (e :: rest) ∧ e.timestamp ≤ s.lastEventTime) →
      fetchEvents B s = s ∧
      (fetchEvents B s).lastEventTime = s.lastEventTime ∧
      (fetchEvents B s).cameras = s.cameras ∧
      newCalls s (fetchEvents B s) = []) ∧
    (∀ (s : State) (B : Option (List Event)),
      fetchEvents B (fetchEvents B s) = fetchEvents B s ∧
      newCalls (fetchEvents B s) (fetchEvents B (fetchEvents B s)) = []) ∧
    (∀ a b : Event,
      let safe100 : Event := { a with timestamp := 100, level := "SAFE" }
      let danger100 : Event := { b with timestamp := 100, level := "DANGER" }
      let s1 := fetchEvents (some [safe100]) init
      s1.lastEventTime = 100 ∧
      fetchEvents (some [danger100]) s1 = s1 ∧
      emergencyActive (fetchEvents (some [danger100]) s1) = false) := by
  have stale : ∀ (s : State) (B : Option (List Event)),
      (B = none ∨ B = some [] ∨
        ∃ e rest, B = some (e :: rest) ∧ e.timestamp ≤ s.lastEventTime) →
      fetchEvents B s = s := by
    intro s B h
    apply fetchEvents_not_new
    rintro ⟨e, rest, hB, hgt⟩
    rcases h with h | h | ⟨e2, rest2, hB2, hle⟩
    · rw [h] at hB; cases hB
    · rw [h] at hB; cases hB
    · rw [hB2] at hB
      have h1 : e2 :: rest2 = e :: rest := Option.some.inj hB
      have h2 : e2 = e := (List.cons.inj h1).1
      subst h2
      omega
  have twice : ∀ (s : State) (B : Option (List Event)),
      fetchEvents B (fetchEvents B s) = fetchEvents B s := by
    intro s B
    by_cases hnew : ∃ e rest, B = some (e :: rest) ∧ e.timestamp > s.lastEventTime
    · obtain ⟨e, rest, hB, hgt⟩ := hnew
      subst hB
      apply stale
      right; right
      exact ⟨e, rest, rfl, le_of_eq (fetchEvents_new_lastEventTime s e rest hgt).symm⟩
    · rw [fetchEvents_not_new s B hnew, fetchEvents_not_new s B hnew]
  refine ⟨?_, ?_, ?_⟩
  · intro s B h
    have hs := stale s B h
    refine ⟨hs, ?_, ?_, ?_⟩
    · rw [hs]
    · rw [hs]
    · rw [hs, newCalls_self]
  · intro s B
    refine ⟨twice s B, ?_⟩
    rw [twice s B, newCalls_self]
  · intro a b safe100 danger100 s1
    have h100 : safe100.timestamp > init.lastEventTime := by
      show (100 : Int) > 0
      decide
    have hlev : isEmergencyLevel safe100.level = false := by
      show isEmergencyLevel "SAFE" = false
      decide
    have hs1 : s1.lastEventTime = 100 := fetchEvents_new_lastEventTime init safe100 [] h100
    have hst : fetchEvents (some [danger100]) s1 = s1 :=
      stale s1 (some [danger100]) (Or.inr (Or.inr ⟨danger100, [], rfl, by rw [hs1]⟩))
    refine ⟨hs1, hst, ?_⟩
    rw [hst]
    unfold emergencyActive
    rw [fetchEvents_new_overlay init safe100 [] h100, hlev]
    decide

theorem fetchEvents_lastEventTime_max (s : State) (B : Option (List Event)) :
    (fetchEvents B s).lastEventTime =
      match B with
      | some (e :: _) => max s.lastEventTime e.timestamp
      | _ => s.lastEventTime := by
  match B with
  | none => rfl
  | some [] => rfl
  | some (e :: rest) =>
    by_cases h : e.timestamp > s.lastEventTime
    · rw [fetchEvents_new_lastEventTime s e rest h]
      exact (max_eq_right (le_of_lt h)).symm
    · rw [fetchEvents_not_new s (some (e :: rest))]
      · exact (max_eq_left (not_lt.mp h)).symm
      · rintro ⟨e2, rest2, heq, hgt⟩
        have h1 : e :: rest = e2 :: rest2 := Option.some.inj heq
        have h2 : e = e2 := (List.cons.inj h1).1
        subst h2
        exact h hgt

theorem foldl_max_of_le (xs : List Int) (a : Int) (h : ∀ y ∈ xs, y ≤ a) :
    xs.foldl max a = a := by
  induction xs with
  | nil => rfl
  | cons x xs ih =>
    have hx : x ≤ a := h x (List.mem_cons_self _ _)
    rw [List.foldl_cons, max_eq_left hx]
    exact ih fun y hy => h y (List.mem_cons_of_mem _ hy)

theorem fetchEvents_sorted_watermark (s : State) (B : List Event)
    (h : (B.map fun e => e.timestamp).Pairwise (· ≥ ·)) :
    (fetchEvents (some B) s).lastEventTime =
      (B.map fun e => e.timestamp).foldl max s.lastEventTime := by
  rw [fetchEvents_lastEventTime_max]
  cases B with
  | nil => rfl
  | cons e rest =>
    simp only [List.map_cons, List.foldl_cons]
    rw [List.map_cons, List.pairwise_cons] at h
    symm
    apply foldl_max_of_le
    intro y hy
    exact le_trans (h.1 y hy) (le_max_right _ _)

theorem run_events_watermark (batches : List (List Event)) (s : State)
    (h : ∀ B ∈ batches, (B.map fun e => e.timestamp).Pairwise (· ≥ ·)) :
    (run s (batches.map fun B => Tick.events (some B))).lastEventTime =
      (batches.flatten.map fun e => e.timestamp).foldl max s.lastEventTime := by
  induction batches generalizing s with
  | nil => rfl
  | cons B bs ih =>
    have hB := h B (List.mem_cons_self _ _)
    have hbs : ∀ B2 ∈ bs, (B2.map fun e => e.timestamp).Pairwise (· ≥ ·) :=
      fun B2 hB2 => h B2 (List.mem_cons_of_mem _ hB2)
    have h1 := ih (fetchEvents (some B) s) hbs
    simp only [run, List.map_cons, List.foldl_cons, step, List.flatten_cons, List.map_append,
      List.foldl_append] at h1 ⊢
    rw [h1, fetchEvents_sorted_watermark s B hB]

/-- C2: for every finite sequence of batches, each ordered newest-first, and
for every number `n` of batches received so far, the watermark after the first
`n` events ticks from the initial state (`lastEventTime = 0`) is the maximum of
0 and the timestamps of all events of those `n` batches; and an events tick
never lowers the watermark, whatever the state and the batch. -/
theorem watermark_is_running_max (batches : List (List Event))
    (h : ∀ B ∈ batches, (B.map fun e => e.timestamp).Pairwise (· ≥ ·)) :
    (∀ n : Nat,
      (run init ((batches.take n).map fun B => Tick.events (some B))).lastEventTime =
        ((batches.take n).flatten.map fun e => e.timestamp).foldl max 0) ∧
    (∀ (s : State) (B : Option (List Event)),
      s.lastEventTime ≤ (fetchEvents B s).lastEventTime) := by
  constructor
  · intro n
    exact run_events_watermark (batches.take n) init
      fun B hB => h B (List.mem_of_mem_take hB)
  · intro s B
    rw [fetchEvents_lastEventTime_max]
    split
    · exact le_max_left _ _
    · exact le_refl _

/-- Witness of C2: a WARN event at 50, then a DANGER event at 80 before the
WARN event at 50; the watermark ends at 80. -/
theorem watermark_is_running_max_witness :
    (∀ B ∈ [[mkEvent [99] 50 "WARN"], [mkEvent [99] 80 "DANGER", mkEvent [99] 50 "WARN"]],
      (B.map fun e => e.timestamp).Pairwise (· ≥ ·)) ∧
    (run init ([[mkEvent [99] 50 "WARN"],
        [mkEvent [99] 80 "DANGER", mkEvent [99] 50 "WARN"]].map
          fun B => Tick.events (some B))).lastEventTime = 80 :=
  ⟨by decide,
   ((watermark_is_running_max
      [[mkEvent [99] 50 "WARN"], [mkEvent [99] 80 "DANGER", mkEvent [99] 50 "WARN"]]
      (by decide)).1 2).trans (by decide)⟩

/-! ## The status tick and the camera list -/

theorem fetchStatus_onlineCameras (data : StatusData) (s : State) :
    (fetchStatus data s).onlineCameras = setAddAll [] (data.online.getD []) := by
  cases h : data.online <;> simp [fetchStatus, renderCameras, h, setAddAll]

theorem fetchStatus_cameras (data : StatusData) (s : State) :
    (fetchStatus data s).cameras = s.cameras := by
  cases h : data.online <;> simp [fetchStatus, renderCameras, h]

theorem fetchStatus_activeCamCount (data : StatusData) (s : State) :
    (fetchStatus data s).activeCamCount =
      some (setAddAll [] (data.online.getD [])).length := by
  cases h : data.online <;> simp [fetchStatus, renderCameras, h, setAddAll]

theorem fetchStatus_cameraList (data : StatusData) (s : State) :
    (fetchStatus data s).cameraList =
      (sortedCams (fetchStatus data s)).map fun cam =>
        { cam := cam, isOnline := decide (cam ∈ (fetchStatus data s).onlineCameras) } := by
  cases h : data.online <;> simp [fetchStatus, renderCameras, h, sortedCams]

theorem run_append_singleton (s : State) (ticks : List Tick) (t : Tick) :
    run s (ticks ++ [t]) = step (run s ticks) t := by
  simp [run, List.foldl_append]

theorem setAddAll_length_eq_card (xs : List CamId) :
    (setAddAll [] xs).length = xs.toFinset.card := by
  rw [← List.toFinset_card_of_nodup (nodup_setAddAll xs [] List.nodup_nil)]
  congr 1
  ext y
  simp [mem_setAddAll]

/-- C7: after any run of the page that ends with a successful status tick on
the response `r` (in particular after any sequence of status ticks ending with
`r`), the online set holds exactly the identities of `r.online`, an absent
`online` counting as empty, each once; the `isOnline` flag of every rendered
camera row is membership in `r.online`; and the displayed online count is the
number of distinct identities of `r.online`. Nothing of the earlier responses
remains. -/
theorem fetchStatus_latest_snapshot (s : State) (ticks : List Tick) (r : StatusData) :
    (∀ id, id ∈ (run s (ticks ++ [Tick.status r])).onlineCameras ↔
      id ∈ r.online.getD []) ∧
    (run s (ticks ++ [Tick.status r])).onlineCameras.Nodup ∧
    (run s (ticks ++ [Tick.status r])).cameraList =
      (sortedCams (run s (ticks ++ [Tick.status r]))).map (fun cam =>
        { cam := cam, isOnline := decide (cam ∈ r.online.getD []) }) ∧
    (run s (ticks ++ [Tick.status r])).activeCamCount =
      some (r.online.getD []).toFinset.card := by
  rw [run_append_singleton]
  simp only [step]
  have hmem : ∀ id, id ∈ (fetchStatus r (run s ticks)).onlineCameras ↔
      id ∈ r.online.getD [] := by
    intro id
    rw [fetchStatus_onlineCameras, mem_setAddAll]
    simp
  refine ⟨hmem, ?_, ?_, ?_⟩
  · rw [fetchStatus_onlineCameras]
    exact nodup_setAddAll _ [] List.nodup_nil
  · rw [fetchStatus_cameraList]
    apply List.map_congr_left
    intro cam _
    simp only [CameraRow.mk.injEq, true_and]
    exact decide_eq_decide.mpr (hmem cam)
  · rw [fetchStatus_activeCamCount, setAddAll_length_eq_card]

theorem step_cameras_subset (s : State) (t : Tick) (id : CamId) (h : id ∈ s.cameras) :
    id ∈ (step s t).cameras := by
  cases t with
  | status data => simp only [step]; rw [fetchStatus_cameras]; exact h
  | events batch =>
    simp only [step]
    by_cases hnew : ∃ e rest, batch = some (e :: rest) ∧ e.timestamp > s.lastEventTime
    · obtain ⟨e, rest, hB, hgt⟩ := hnew
      subst hB
      rw [fetchEvents_new_cameras s e rest hgt, mem_setAddAll]
      exact Or.inl h
    · rw [fetchEvents_not_new s batch hnew]; exact h
  | elapse ms => exact h
  | closeModal => exact h

theorem run_cameras_subset (ticks : List Tick) (s : State) (id : CamId) (h : id ∈ s.cameras) :
    id ∈ (run s ticks).cameras := by
  induction ticks generalizing s with
  | nil => exact h
  | cons t ts ih => exact ih (step s t) (step_cameras_subset s t id h)

/-- C8: for every state `s`, every batch `B` that the events tick renders
(`B[0].timestamp` above the watermark of `s`) and every event `e` of `B`, the
identity `e.stream_id` is in the observed set right after the tick and, after
any later ticks (status, events, timers, modal closing) whatever their
responses, is still in the observed set and in the list computed by
`renderCameras`; and no tick removes an identity from the observed set. -/
theorem observed_camera_stays_known (s : State) (latest : Event) (rest : List Event)
    (e : Event) (later : List Tick)
    (hnew : latest.timestamp > s.lastEventTime) (he : e ∈ latest :: rest) :
    e.stream_id ∈ (fetchEvents (some (latest :: rest)) s).cameras ∧
    e.stream_id ∈ (run s (Tick.events (some (latest :: rest)) :: later)).cameras ∧
    e.stream_id ∈ sortedCams (run s (Tick.events (some (latest :: rest)) :: later)) ∧
    (∀ (s0 : State) (t : Tick) (id : CamId), id ∈ s0.cameras → id ∈ (step s0 t).cameras) := by
  have h1 : e.stream_id ∈ (fetchEvents (some (latest :: rest)) s).cameras := by
    rw [fetchEvents_new_cameras s latest rest hnew, mem_setAddAll]
    exact Or.inr (List.mem_map_of_mem _ he)
  have h2 : e.stream_id ∈ (run s (Tick.events (some (latest :: rest)) :: later)).cameras :=
    run_cameras_subset later _ _ h1
  exact ⟨h1, h2, (mem_sortedCams _ _).mpr (Or.inl h2), step_cameras_subset⟩

/-- Witness of C8: camera "c" (code unit 99) is seen in an event, then two
status responses report only camera "d" (code unit 100) and nothing. -/
theorem observed_camera_stays_known_witness :
    [99] ∈ sortedCams (run init
      [Tick.events (some [mkEvent [99] 10 "SAFE"]),
       Tick.status { online := some [[100]] }, Tick.status { online := none }]) :=
  (observed_camera_stays_known init (mkEvent [99] 10 "SAFE") [] (mkEvent [99] 10 "SAFE")
    [Tick.status { online := some [[100]] }, Tick.status { online := none }]
    (by decide) (by decide)).2.2.1

/-- C9: for every state, the list computed by `renderCameras` holds exactly the
identities of the observed set or of the online set, each exactly once, in
strictly ascending order of code units; the rendered rows are these
identities in this order. -/
theorem sortedCams_sorted_union (s : State) :
    (∀ id, id ∈ sortedCams s ↔ id ∈ s.cameras ∨ id ∈ s.onlineCameras) ∧
    (sortedCams s).Nodup ∧
    (sortedCams s).Pairwise (fun a b => strLt a b = true) ∧
    (renderCameras s).cameraList.map (fun row => row.cam) = sortedCams s := by
  refine ⟨mem_sortedCams s, sortedCams_nodup s, ?_, ?_⟩
  · have hs : (sortedCams s).Pairwise strLe := sortedCams_sorted s
    have hn : (sortedCams s).Pairwise (· ≠ ·) := sortedCams_nodup s
    refine (hs.and hn).imp ?_
    rintro a b ⟨hle, hne⟩
    cases hab : strLt a b with
    | true => rfl
    | false => exact absurd (strLt_connex a b hab hle) hne
  · simp [renderCameras, List.map_map, Function.comp_def]

/-- C10: `getLevelColor` is defined on every level: DANGER and EXTREME give
`text-red-500`, WARN gives `text-amber-400`, SAFE gives `text-green-500`, and
every other level, `UNKNOWN_LEVEL` among them, gives `text-gray-400`; the levels
that give `text-red-500` are exactly those that pass the emergency test of
`fetchEvents`. -/
theorem getLevelColor_table :
    getLevelColor "DANGER" = "text-red-500" ∧
    getLevelColor "EXTREME" = "text-red-500" ∧
    getLevelColor "WARN" = "text-amber-400" ∧
    getLevelColor "SAFE" = "text-green-500" ∧
    getLevelColor "UNKNOWN_LEVEL" = "text-gray-400" ∧
    isEmergencyLevel "UNKNOWN_LEVEL" = false ∧
    (∀ level : String, level ∉ ["DANGER", "EXTREME", "WARN", "SAFE"] →
      getLevelColor level = "text-gray-400") ∧
    (∀ level : String, getLevelColor level = "text-red-500" ↔
      isEmergencyLevel level = true) := by
  refine ⟨by decide, by decide, by decide, by decide, by decide, by decide, ?_, ?_⟩
  · intro level h
    simp only [List.mem_cons, List.mem_singleton, List.not_mem_nil, or_false, not_or] at h
    simp [getLevelColor, h.1, h.2.1, h.2.2.1, h.2.2.2]
  · intro level
    rw [isEmergencyLevel_iff]
    unfold getLevelColor
    constructor
    · intro h
      by_cases h1 : level = "DANGER"
      · exact Or.inl h1
      · by_cases h2 : level = "EXTREME"
        · exact Or.inr h2
        · exfalso
          simp only [h1, h2, if_false] at h
          split at h
          · revert h; decide
          · split at h
            · revert h; decide
            · revert h; decide
    · rintro (h | h)
      · simp [h]
      · subst h
        decide

/-! ## The emergency overlay and its timers -/

theorem triggerEmergency_with_clip (e : Event) (c : String) (s : State) :
    (triggerEmergency { e with video_clip := some c } s).1.timers = s.timers ++ [s.now + 5000] ∧
    (triggerEmergency { e with video_clip := some c } s).1.now = s.now ∧
    (triggerEmergency { e with video_clip := some c } s).1.emergencyOverlayDisplay = "block" ∧
    (triggerEmergency { e with video_clip := some c } s).2 = none := by
  simp [triggerEmergency, openAlertModal]

theorem triggerEmergency_without_clip (e : Event) (s : State) :
    (triggerEmergency { e with video_clip := none } s).1.timers = s.timers ∧
    (triggerEmergency { e with video_clip := none } s).1.now = s.now ∧
    (triggerEmergency { e with video_clip := none } s).1.emergencyOverlayDisplay = "block" ∧
    (triggerEmergency { e with video_clip := none } s).2 = some "TypeError" := by
  simp [triggerEmergency, openAlertModal]

theorem elapse_no_timers (ms : Nat) (s : State) (h : s.timers = []) :
    (elapse ms s).emergencyOverlayDisplay = s.emergencyOverlayDisplay ∧
    (elapse ms s).timers = [] := by
  simp [elapse, h]

/-- The part of C4 that holds: from a state without pending callback, a trigger
at time 0 on an event that carries a `video_clip` shows the overlay exactly
during the first 5000 ms. -/
theorem triggerEmergency_dwell_with_clip (s : State) (e : Event) (c : String) (t : Nat) :
    emergencyActive (emergencyAt { s with timers := [], now := 0 }
      [(0, { e with video_clip := some c })] t) = decide (t < 5000) := by
  obtain ⟨h1, h2, h3, _⟩ :=
    triggerEmergency_with_clip e c (elapse (0 - 0) { s with timers := [], now := 0 })
  simp only [emergencyAt, Nat.zero_le, if_true, emergencyActive, elapse] at h1 h2 h3 ⊢
  rw [h1, h2, h3]
  by_cases ht : t < 5000
  · have : ¬ 5000 ≤ t := by omega
    simp [ht, this]
  · have : 5000 ≤ t := by omega
    simp [ht, this]

/-- C3, as stated, fails: with triggers at 0 ms and 3000 ms the overlay is
still shown at 4999 ms but hidden at 5000 ms and at 6000 ms, inside the
interval up to 8000 ms, while the callback of the second trigger is still
pending for 8000 ms. -/
theorem retrigger_does_not_extend_dwell :
    emergencyActive (emergencyAt init
      [(0, mkEvent [99] 80 "DANGER"), (3000, mkEvent [99] 90 "EXTREME")] 4999) = true ∧
    emergencyActive (emergencyAt init
      [(0, mkEvent [99] 80 "DANGER"), (3000, mkEvent [99] 90 "EXTREME")] 5000) = false ∧
    emergencyActive (emergencyAt init
      [(0, mkEvent [99] 80 "DANGER"), (3000, mkEvent [99] 90 "EXTREME")] 6000) = false ∧
    (emergencyAt init
      [(0, mkEvent [99] 80 "DANGER"), (3000, mkEvent [99] 90 "EXTREME")] 6000).timers =
        [8000] := by
  decide

/-- C3, amended: from a state without pending callback, with a trigger at 0 ms
and a second trigger at 3000 ms, both on events that carry a `video_clip`, the
callback of the first trigger is not cancelled: the overlay is shown at every
time before 5000 ms and hidden at every time from 5000 ms on; the callbacks
pending are the one for 5000 ms before 3000 ms, those for 5000 ms and 8000 ms
from 3000 ms on, the one for 8000 ms from 5000 ms on, and none from 8000 ms on. -/
theorem retrigger_keeps_first_timer (s : State) (e1 e2 : Event) (c1 c2 : String) (t : Nat) :
    emergencyActive (emergencyAt { s with timers := [], now := 0 }
      [(0, { e1 with video_clip := some c1 }), (3000, { e2 with video_clip := some c2 })] t) =
        decide (t < 5000) ∧
    (emergencyAt { s with timers := [], now := 0 }
      [(0, { e1 with video_clip := some c1 }), (3000, { e2 with video_clip := some c2 })] t).timers =
        (if t < 3000 then [5000] else if t < 5000 then [5000, 8000]
         else if t < 8000 then [8000] else []) := by
  obtain ⟨h1, h2, h3, _⟩ :=
    triggerEmergency_with_clip e1 c1 (elapse (0 - 0) { s with timers := [], now := 0 })
  generalize hs1 : (triggerEmergency { e1 with video_clip := some c1 }
    (elapse (0 - 0) { s with timers := [], now := 0 })).1 = s1 at h1 h2 h3
  have h1b : s1.timers = [5000] := by simpa [elapse] using h1
  have h2b : s1.now = 0 := by simpa [elapse] using h2
  obtain ⟨k1, k2, k3, _⟩ := triggerEmergency_with_clip e2 c2 (elapse (3000 - s1.now) s1)
  generalize hs2 : (triggerEmergency { e2 with video_clip := some c2 }
    (elapse (3000 - s1.now) s1)).1 = s2 at k1 k2 k3
  have k1b : s2.timers = [5000, 8000] := by simpa [elapse, h1b, h2b] using k1
  have k2b : s2.now = 3000 := by simpa [elapse, h2b] using k2
  simp only [emergencyAt, Nat.zero_le, if_true, hs1, hs2]
  by_cases ht3 : 3000 ≤ t
  · simp only [ht3, if_true, emergencyActive, elapse, k1b, k2b, k3]
    have e3 : 3000 + (t - 3000) = t := by omega
    rw [e3]
    by_cases ht5 : t < 5000
    · have a1 : ¬ 5000 ≤ t := by omega
      have a2 : ¬ 8000 ≤ t := by omega
      have a3 : ¬ t < 3000 := by omega
      have a4 : t < 8000 := by omega
      simp [ht5, a1, a2, a3, a4]
    · have a1 : 5000 ≤ t := by omega
      have a3 : ¬ t < 3000 := by omega
      by_cases ht8 : t < 8000
      · simp [ht5, a1, a3, ht8]
      · simp [ht5, a1, a3, ht8]
  · simp only [ht3, if_false, emergencyActive, elapse, h1b, h2b, h3]
    have a1 : t < 5000 := by omega
    have a2 : ¬ 5000 ≤ t := by omega
    have a3 : t < 3000 := by omega
    simp [a1, a2, a3]

/-- C4 on an event without `video_clip`: `openAlertModal` throws inside
`triggerEmergency` before `setTimeout` is reached, so the overlay is shown, no
callback is pending, and the overlay is still shown at every later time, 5000
ms included. The same holds when the event arrives through an events tick,
where the exception is caught and logged. -/
theorem trigger_without_clip_never_clears (s : State) (e : Event) (t : Nat) :
    (triggerEmergency { e with video_clip := none } { s with timers := [], now := 0 }).2 =
      some "TypeError" ∧
    (emergencyAt { s with timers := [], now := 0 }
      [(0, { e with video_clip := none })] t).timers = [] ∧
    emergencyActive (emergencyAt { s with timers := [], now := 0 }
      [(0, { e with video_clip := none })] t) = true ∧
    emergencyActive (elapse 5000 (fetchEvents
      (some [{ stream_id := [99], timestamp := 80, level := "DANGER", description := "",
               full_analysis := none, video_clip := none }]) init)) = true := by
  obtain ⟨h1, _, h3, _⟩ :=
    triggerEmergency_without_clip e (elapse (0 - 0) { s with timers := [], now := 0 })
  generalize hs1 : (triggerEmergency { e with video_clip := none }
    (elapse (0 - 0) { s with timers := [], now := 0 })).1 = s1 at h1 h3
  have h1b : s1.timers = [] := by simpa [elapse] using h1
  obtain ⟨k1, k2⟩ := elapse_no_timers (t - s1.now) s1 h1b
  refine ⟨(triggerEmergency_without_clip e _).2.2.2, ?_, ?_, by decide⟩
  · simp only [emergencyAt, Nat.zero_le, if_true, hs1]
    exact k2
  · simp only [emergencyAt, Nat.zero_le, if_true, hs1, emergencyActive]
    rw [k1, h3]
    decide

end Dashboard
